import Mathlib

/-!
Verification of the item normalization and scoring pipeline of
`src/partnerai_intel_report.py` (marketedgeglobal/marketintelligence).

The pipeline is shallowly embedded: Python strings become `String`
manipulated through char-list helpers (Lean's built-in `String.toLower`
etc. do not reduce in the kernel), JSON-shaped Python values become the
mutual inductive `JVal`/`JList`/`JFields`, datetimes become UTC epoch
seconds (`Int`), and the two external effectful dependencies —
`dateutil.parser.parse` and `hashlib.sha256(...).hexdigest()` — become
function parameters (`parseDate : String → Option Int`, resp.
`hash : String → String`) threaded through the pipeline.
-/

/-! ## Character and string helpers -/

/-- ASCII whitespace, as matched by Python regex class \s and str.strip. -/
def isSpaceChar (c : Char) : Bool :=
  c = ' ' || c = '\t' || c = '\n' || c = '\r' || c = '\x0b' || c = '\x0c'

/-- ASCII decimal digit, as matched by Python regex class \d. -/
def isDigitChar (c : Char) : Bool :=
  '0' ≤ c && c ≤ '9'

/-- Python str.lower on one ASCII char. -/
def lowerChar (c : Char) : Char :=
  if 65 ≤ c.toNat ∧ c.toNat ≤ 90 then Char.ofNat (c.toNat + 32) else c

/-- Python str.upper on one ASCII char. -/
def upperChar (c : Char) : Char :=
  if 97 ≤ c.toNat ∧ c.toNat ≤ 122 then Char.ofNat (c.toNat - 32) else c

/-- Python str.lower. -/
def lowerStr (s : String) : String :=
  String.mk (s.toList.map lowerChar)

/-- Collapse every run of whitespace to a single space: re.sub of \s+ by one space. -/
def collapseWS : List Char → List Char
  | [] => []
  | [c] => if isSpaceChar c then [' '] else [c]
  | c1 :: c2 :: rest =>
    if isSpaceChar c1 && isSpaceChar c2 then collapseWS (c2 :: rest)
    else (if isSpaceChar c1 then ' ' else c1) :: collapseWS (c2 :: rest)

/-- Drop leading and trailing whitespace from a char list. -/
def stripChars (cs : List Char) : List Char :=
  ((cs.dropWhile isSpaceChar).reverse.dropWhile isSpaceChar).reverse

/-- Function `normalize_text` of the source: collapse whitespace runs to single
spaces and strip the ends. -/
def normalize_text (value : String) : String :=
  String.mk (stripChars (collapseWS value.toList))

/-- Python str.strip(). -/
def pyStrip (s : String) : String :=
  String.mk (stripChars s.toList)

/-- Helper for `strContains`: does the needle occur at some position of the haystack. -/
def strContainsAux (needle : List Char) : List Char → Bool
  | [] => needle.isEmpty
  | c :: rest => needle.isPrefixOf (c :: rest) || strContainsAux needle rest

/-- Python substring test: needle in haystack. -/
def strContains (haystack needle : String) : Bool :=
  strContainsAux needle.toList haystack.toList

/-- Case-insensitive literal prefix test: the needle is given lower-case and is
compared against the lower-cased head of the haystack. -/
def lcLeads : List Char → List Char → Bool
  | [], _ => true
  | _ :: _, [] => false
  | n :: ns, c :: cs => (lowerChar c == n) && lcLeads ns cs

/-- Python " ".join. -/
def joinSpace : List String → String
  | [] => ""
  | [x] => x
  | x :: y :: rest => x ++ " " ++ joinSpace (y :: rest)

/-- Python sep.join for an arbitrary separator. -/
def joinWith (sep : String) : List String → String
  | [] => ""
  | [x] => x
  | x :: y :: rest => x ++ sep ++ joinWith sep (y :: rest)

/-- Helper for `splitOnComma`, accumulating the current segment reversed. -/
def splitOnCommaAux : List Char → List Char → List String
  | acc, [] => [String.mk acc.reverse]
  | acc, ',' :: rest => String.mk acc.reverse :: splitOnCommaAux [] rest
  | acc, c :: rest => splitOnCommaAux (c :: acc) rest

/-- Python str.split on a comma. -/
def splitOnComma (s : String) : List String :=
  splitOnCommaAux [] s.toList

/-- Single-quote character, written via its code point. -/
def squote : Char := Char.ofNat 39

/-- Helper for `pyTitle`: the Bool records whether the previous char was a letter. -/
def pyTitleAux : Bool → List Char → List Char
  | _, [] => []
  | prevAlpha, c :: rest =>
    (if prevAlpha then lowerChar c else upperChar c) :: pyTitleAux c.isAlpha rest

/-- Python str.title(): upper-case letters that do not follow a letter,
lower-case the other letters. -/
def pyTitle (s : String) : String :=
  String.mk (pyTitleAux false s.toList)

/-! ## JSON-shaped Python values

Mutual inductives are used (rather than a nested `List JVal`) so that the
stringification functions below are structurally recursive and hence compute
inside the kernel.  Numbers are restricted to integers: no claim involves
float-typed payload fields. -/

mutual
inductive JVal where
  | jnull : JVal
  | jbool : Bool → JVal
  | jnum : Int → JVal
  | jstr : String → JVal
  | jarr : JList → JVal
  | jobj : JFields → JVal
inductive JList where
  | nil : JList
  | cons : JVal → JList → JList
inductive JFields where
  | nil : JFields
  | cons : String → JVal → JFields → JFields
end

/-- Build a `JFields` record from a Lean association list. -/
def jfieldsOf : List (String × JVal) → JFields
  | [] => .nil
  | (k, v) :: rest => .cons k v (jfieldsOf rest)

/-- Build a `JList` from a Lean list. -/
def jlistOf : List JVal → JList
  | [] => .nil
  | v :: rest => .cons v (jlistOf rest)

/-- Python truthiness of a JSON-shaped value. -/
def JVal.truthy : JVal → Bool
  | .jnull => false
  | .jbool b => b
  | .jnum n => n != 0
  | .jstr s => s != ""
  | .jarr .nil => false
  | .jarr (.cons _ _) => true
  | .jobj .nil => false
  | .jobj (.cons _ _ _) => true

mutual
/-- Python str() of a JSON-shaped value (lists and dicts print their entries
with repr, like CPython; string escaping inside repr is not modelled). -/
def pyStr : JVal → String
  | .jnull => "None"
  | .jbool true => "True"
  | .jbool false => "False"
  | .jnum n => toString n
  | .jstr s => s
  | .jarr xs => "[" ++ pyStrList xs ++ "]"
  | .jobj fs => "\x7b" ++ pyStrFields fs ++ "\x7d"
/-- Python repr() of a JSON-shaped value, as used for container entries. -/
def pyRepr : JVal → String
  | .jnull => "None"
  | .jbool true => "True"
  | .jbool false => "False"
  | .jnum n => toString n
  | .jstr s => String.mk [squote] ++ s ++ String.mk [squote]
  | .jarr xs => "[" ++ pyStrList xs ++ "]"
  | .jobj fs => "\x7b" ++ pyStrFields fs ++ "\x7d"
/-- Comma-joined reprs of list entries. -/
def pyStrList : JList → String
  | .nil => ""
  | .cons x .nil => pyRepr x
  | .cons x (.cons y rest) => pyRepr x ++ ", " ++ pyStrList (.cons y rest)
/-- Comma-joined reprs of dict entries. -/
def pyStrFields : JFields → String
  | .nil => ""
  | .cons k v .nil => String.mk [squote] ++ k ++ String.mk [squote] ++ ": " ++ pyRepr v
  | .cons k v (.cons k2 v2 rest) =>
    String.mk [squote] ++ k ++ String.mk [squote] ++ ": " ++ pyRepr v ++ ", "
      ++ pyStrFields (.cons k2 v2 rest)
end

/-- Python `a or b`. -/
def pyOr (a b : JVal) : JVal :=
  if a.truthy then a else b

/-- First value stored under the key, if any. -/
def jfind : JFields → String → Option JVal
  | .nil, _ => none
  | .cons k v rest, key => if k == key then some v else jfind rest key

/-- Python dict.get(key): the stored value, None when absent. -/
def jget (o : JFields) (k : String) : JVal :=
  (jfind o k).getD .jnull

/-- Python `key in dict`. -/
def jhas (o : JFields) (k : String) : Bool :=
  (jfind o k).isSome

/-- Python str(item.get(k) or ""). -/
def getStr1 (o : JFields) (k : String) : String :=
  pyStr (pyOr (jget o k) (.jstr ""))

/-- Python str(item.get(k1) or item.get(k2) or ""). -/
def getStr2 (o : JFields) (k1 k2 : String) : String :=
  pyStr (pyOr (jget o k1) (pyOr (jget o k2) (.jstr "")))

/-- Python str(item.get(k1) or item.get(k2) or item.get(k3) or ""). -/
def getStr3 (o : JFields) (k1 k2 k3 : String) : String :=
  pyStr (pyOr (jget o k1) (pyOr (jget o k2) (pyOr (jget o k3) (.jstr ""))))

/-- Python str(item.get(k1) or ... or item.get(k4) or ""). -/
def getStr4 (o : JFields) (k1 k2 k3 k4 : String) : String :=
  pyStr (pyOr (jget o k1) (pyOr (jget o k2) (pyOr (jget o k3) (pyOr (jget o k4) (.jstr "")))))

/-! ## URL parsing (model of the urllib.parse fragment used by the source) -/

/-- Characters allowed after the first char of a URL scheme. -/
def isSchemeTailChar (c : Char) : Bool :=
  c.isAlpha || isDigitChar c || c = '+' || c = '-' || c = '.'

/-- Helper scanning for the colon ending a candidate scheme. -/
def splitSchemeAux : List Char → List Char → Option (List Char × List Char)
  | acc, ':' :: rest => some (acc.reverse, rest)
  | acc, c :: rest => if isSchemeTailChar c then splitSchemeAux (c :: acc) rest else none
  | _, [] => none

/-- Modelled from urllib.parse.urlparse: split off a leading scheme (a letter
followed by letters, digits, +, - or . up to a colon), lower-cased; when no
valid scheme is present the scheme is empty and the input is untouched. -/
def urlSplitScheme (cs : List Char) : String × List Char :=
  match splitSchemeAux [] cs with
  | some (sch, rest) =>
    match sch with
    | [] => ("", cs)
    | c0 :: _ => if c0.isAlpha then (String.mk (sch.map lowerChar), rest) else ("", cs)
  | none => ("", cs)

/-- Modelled from urllib.parse.urlparse: the netloc is the part after a leading
"//" up to the next /, ? or #; empty when the rest does not start with "//". -/
def urlNetloc (rest : List Char) : List Char :=
  match rest with
  | '/' :: '/' :: tail => tail.takeWhile (fun c => !(c = '/' || c = '?' || c = '#'))
  | _ => []

/-- Drop the userinfo part (everything up to the last @) of a netloc. -/
def afterLastAt (cs : List Char) : List Char :=
  (cs.reverse.takeWhile (fun c => c != '@')).reverse

/-- Modelled from urllib.parse: hostname of a URL — netloc without userinfo and
port, lower-cased (bracketed IPv6 hosts are not modelled). -/
def urlHostname (value : String) : String :=
  let rest := (urlSplitScheme value.toList).2
  String.mk (((afterLastAt (urlNetloc rest)).takeWhile (fun c => c != ':')).map lowerChar)

/-- Function `is_http_url` of the source: http(s) scheme and non-empty netloc. -/
def is_http_url (value : String) : Bool :=
  let parsed := urlSplitScheme value.toList
  (parsed.1 == "http" || parsed.1 == "https") && !(urlNetloc parsed.2).isEmpty

/-- Constant PLACEHOLDER_URL_HOSTS of the source. -/
def PLACEHOLDER_URL_HOSTS : List String :=
  ["example.com", "www.example.com", "example.org", "www.example.org",
   "example.net", "www.example.net", "localhost", "127.0.0.1"]

/-- Function `is_placeholder_url` of the source. -/
def is_placeholder_url (value : String) : Bool :=
  PLACEHOLDER_URL_HOSTS.contains (urlHostname value)

/-- One char of the negated class of URL_PATTERN (not whitespace and not one
of the closing delimiters and quotes). -/
def isUrlBodyChar (c : Char) : Bool :=
  !(isSpaceChar c || c = ')' || c = ']' || c = '\x7d' || c = '>' || c = '"' || c = squote)

/-- Match URL_PATTERN (https?:// followed by one or more body chars,
case-insensitive on the scheme) at the head of the input; returns the matched
chars and the remaining input. -/
def urlMatchAt (cs : List Char) : Option (List Char × List Char) :=
  if lcLeads "https://".toList cs then
    let body := (cs.drop 8).takeWhile isUrlBodyChar
    if body.isEmpty then none else some (cs.take 8 ++ body, cs.drop (8 + body.length))
  else if lcLeads "http://".toList cs then
    let body := (cs.drop 7).takeWhile isUrlBodyChar
    if body.isEmpty then none else some (cs.take 7 ++ body, cs.drop (7 + body.length))
  else none

/-- Scanner behind re.finditer of URL_PATTERN: leftmost non-overlapping
matches.  The Nat fuel only bounds the scan; calls pass the input length,
which always suffices because every step consumes at least one char. -/
def findUrlsAux : Nat → List Char → List (List Char)
  | 0, _ => []
  | _ + 1, [] => []
  | fuel + 1, c :: rest =>
    match urlMatchAt (c :: rest) with
    | some (m, rest2) => m :: findUrlsAux fuel rest2
    | none => findUrlsAux fuel rest

/-- Python str.rstrip(".,;:") applied to each URL match. -/
def rstripPunct (cs : List Char) : List Char :=
  (cs.reverse.dropWhile (fun c => c = '.' || c = ',' || c = ';' || c = ':')).reverse

/-- Function `extract_urls_from_text` of the source. -/
def extract_urls_from_text (value : String) : List String :=
  if value = "" then []
  else (findUrlsAux value.toList.length value.toList).map (fun m => String.mk (rstripPunct m))

/-- Constant SOURCE_FALLBACK_URLS of the source, in dict insertion order. -/
def SOURCE_FALLBACK_URLS : List (String × String) :=
  [("developmentaid", "https://www.developmentaid.org/api/frontend/funding/rss.xml"),
   ("reliefweb", "https://reliefweb.int/updates/rss.xml"),
   ("asian development bank", "https://www.adb.org/rss/business-opportunities.xml"),
   ("adb", "https://www.adb.org/rss/business-opportunities.xml"),
   ("world bank", "https://projects.worldbank.org/en/projects-operations/procurement/rss"),
   ("un news economic", "https://news.un.org/feed/subscribe/en/news/topic/economic-development/feed/rss.xml"),
   ("un news humanitarian", "https://news.un.org/feed/subscribe/en/news/topic/humanitarian-aid/feed/rss.xml"),
   ("un ocha", "https://www.unocha.org/rss.xml"),
   ("unocha", "https://www.unocha.org/rss.xml"),
   ("unicef", "https://www.unicef.org/"),
   ("unhcr", "https://www.unhcr.org/rss.xml"),
   ("eu tenders", "https://ted.europa.eu/TED/rss/en/RSS.xml"),
   ("ted", "https://ted.europa.eu/TED/rss/en/RSS.xml"),
   ("eu international partnerships", "https://international-partnerships.ec.europa.eu/newsroom/feed_en"),
   ("usaid", "https://www.usaid.gov/news-information/press-releases/rss.xml"),
   ("oecd", "https://oecd-development-matters.org/feed/"),
   ("african development bank", "https://www.afdb.org/en/projects-and-operations/procurement/rss"),
   ("afdb", "https://www.afdb.org/en/projects-and-operations/procurement/rss"),
   ("inter-american development bank", "https://www.iadb.org/en/rss"),
   ("inter american development bank", "https://www.iadb.org/en/rss"),
   ("idb", "https://www.iadb.org/en/rss"),
   ("green climate fund", "https://www.greenclimate.fund/rss.xml"),
   ("gcf", "https://www.greenclimate.fund/rss.xml"),
   ("global environment facility", "https://www.thegef.org/rss.xml"),
   ("gef", "https://www.thegef.org/rss.xml")]

/-- Function `source_fallback_url` of the source: the two "un news" special
cases first, then the first fallback-table key occurring as a substring of the
normalized lower-cased source name. -/
def source_fallback_url (source_name : String) : String :=
  let normalized := lowerStr (normalize_text source_name)
  if normalized = "" then ""
  else if strContains normalized "un news" && strContains normalized "humanitarian" then
    "https://news.un.org/feed/subscribe/en/news/topic/humanitarian-aid/feed/rss.xml"
  else if strContains normalized "un news"
      && (strContains normalized "economic" || strContains normalized "development") then
    "https://news.un.org/feed/subscribe/en/news/topic/economic-development/feed/rss.xml"
  else
    match SOURCE_FALLBACK_URLS.find? (fun kv => strContains normalized kv.1) with
    | some kv => kv.2
    | none => ""

/-- Candidate keys scanned by `select_best_url`, in order. -/
def URL_CANDIDATE_KEYS : List String :=
  ["opportunity_url", "canonical_url", "external_url", "source_url", "article_url", "url", "link"]

/-- Candidate URL values of `select_best_url`: the non-empty normalized values
of the candidate keys, then every URL found in summary+raw_content text. -/
def url_candidate_values (item : JFields) : List String :=
  (URL_CANDIDATE_KEYS.map (fun k => normalize_text (getStr1 item k))).filter (fun v => v != "")
    ++ extract_urls_from_text (getStr2 item "summary" "description" ++ " " ++ getStr2 item "raw_content" "content")

/-- Source name used for the fallback lookup inside `select_best_url`. -/
def sourceNameOf (item : JFields) : String :=
  normalize_text (getStr2 item "feed_source" "source")

/-- Function `select_best_url` of the source. -/
def select_best_url (item : JFields) : String :=
  let valid_candidates := (url_candidate_values item).filter is_http_url
  let non_placeholder := valid_candidates.filter (fun c => !is_placeholder_url c)
  match non_placeholder with
  | c :: _ => normalize_text c
  | [] =>
    let mapped_fallback := source_fallback_url (sourceNameOf item)
    if mapped_fallback != "" then mapped_fallback else ""

/-! ## MONEY_PATTERN and extract_money_value -/

/-- Optional decimal part of MONEY_PATTERN: a dot followed by one or more
digits; returns (consumed, rest), consuming nothing when absent. -/
def decimalsOpt (cs : List Char) : List Char × List Char :=
  match cs with
  | '.' :: rest =>
    let ds := rest.takeWhile isDigitChar
    if ds.isEmpty then ([], cs) else ('.' :: ds, rest.drop ds.length)
  | _ => ([], cs)

/-- Magnitude alternation of MONEY_PATTERN in pattern order: million, billion,
m, bn (case-insensitive). -/
def magWord (cs : List Char) : Option (List Char × List Char) :=
  if lcLeads "million".toList cs then some (cs.take 7, cs.drop 7)
  else if lcLeads "billion".toList cs then some (cs.take 7, cs.drop 7)
  else if lcLeads "m".toList cs then some (cs.take 1, cs.drop 1)
  else if lcLeads "bn".toList cs then some (cs.take 2, cs.drop 2)
  else none

/-- Optional magnitude group of MONEY_PATTERN, with the \s? backtracking of
the regex engine: a magnitude word preceded by at most one whitespace char
(a whitespace char not followed by a magnitude word leaves the group empty,
since no magnitude word starts with whitespace). -/
def magOpt (cs : List Char) : List Char × List Char :=
  match cs with
  | c :: rest =>
    if isSpaceChar c then
      match magWord rest with
      | some (m, r) => (c :: m, r)
      | none => ([], cs)
    else
      match magWord cs with
      | some (m, r) => (m, r)
      | none => ([], cs)
  | [] => ([], [])

/-- Shared tail of both MONEY_PATTERN alternatives after the currency marker:
one optional whitespace char, a digit, then digits/commas, then the optional
decimal part and the optional magnitude group.  Greedy maximal munch is exact
here because everything after each piece is optional. -/
def moneyTail (cs : List Char) : Option (List Char) :=
  match cs with
  | c :: rest =>
    if isSpaceChar c then
      match rest with
      | d :: rest2 =>
        if isDigitChar d then
          let dc := rest2.takeWhile (fun x => isDigitChar x || x = ',')
          let afterDigits := rest2.drop dc.length
          let dec := decimalsOpt afterDigits
          let mag := magOpt dec.2
          some (c :: d :: (dc ++ dec.1 ++ mag.1))
        else none
      | [] => none
    else if isDigitChar c then
      let dc := rest.takeWhile (fun x => isDigitChar x || x = ',')
      let afterDigits := rest.drop dc.length
      let dec := decimalsOpt afterDigits
      let mag := magOpt dec.2
      some (c :: (dc ++ dec.1 ++ mag.1))
    else none
  | [] => none

/-- Match MONEY_PATTERN at the current position: the dollar alternative, then
the usd/eur/gbp alternative (case-insensitive). -/
def matchMoneyAt (cs : List Char) : Option (List Char) :=
  match cs with
  | '$' :: rest => (moneyTail rest).map (fun m => '$' :: m)
  | _ =>
    if lcLeads "usd".toList cs || lcLeads "eur".toList cs || lcLeads "gbp".toList cs then
      (moneyTail (cs.drop 3)).map (fun m => cs.take 3 ++ m)
    else none

/-- Scanner behind re.search of MONEY_PATTERN: leftmost match. -/
def findMoney : List Char → Option (List Char)
  | [] => none
  | c :: rest =>
    match matchMoneyAt (c :: rest) with
    | some m => some m
    | none => findMoney rest

/-- Function `extract_money_value` of the source. -/
def extract_money_value (text : String) : String :=
  if text = "" then ""
  else
    match findMoney text.toList with
    | some m => normalize_text (String.mk m)
    | none => ""

/-- Statement-side predicate for claim C2: some position of the text starts
with a currency marker ($ or case-insensitive usd/eur/gbp). -/
def hasCurrencyMarkerAux : List Char → Bool
  | [] => false
  | c :: rest =>
    (c = '$' || lcLeads "usd".toList (c :: rest) || lcLeads "eur".toList (c :: rest)
      || lcLeads "gbp".toList (c :: rest))
    || hasCurrencyMarkerAux rest

/-- Statement-side predicate for claim C2, on strings. -/
def hasCurrencyMarker (s : String) : Bool :=
  hasCurrencyMarkerAux s.toList

/-! ## Normalization, classification and scoring -/

/-- Item shape produced by `coerce_item` (the pre-classification dictionary);
the timestamp keeps its raw JSON-shaped value, parsed only at the pipeline
boundary. -/
structure CoercedItem where
  timestamp : JVal
  feed_source : String
  title : String
  url : String
  summary : String
  raw_content : String
  author : String
  categories : List String
  sector : String
  funding_amount : String

/-- Item shape produced by `score_item` (dataclass IntelItem of the source),
with the parsed UTC timestamp in epoch seconds. -/
structure IntelItem where
  timestamp : Int
  feed_source : String
  title : String
  url : String
  summary : String
  raw_content : String
  author : String
  categories : List String
  category : String
  sector : String
  funding_amount : String
  opportunity_type : String
  key_signal : String
  score : Int
  priority : String

/-- Sector rule table of `detect_sector`, in order. -/
def SECTOR_RULES : List (String × List String) :=
  [("Agriculture", ["agriculture", "agrifood", "farming", "crop", "food security"]),
   ("Climate & Environment", ["climate", "environment", "resilience", "biodiversity", "conservation"]),
   ("Water, Sanitation & Hygiene", ["wash", "sanitation", "water", "hygiene"]),
   ("Health", ["health", "hospital", "disease", "medical", "vaccine"]),
   ("Education", ["education", "schools", "learning", "curriculum"]),
   ("Energy", ["energy", "renewable", "solar", "grid", "power"]),
   ("Digital & ICT", ["digital", "ict", "data", "connectivity", "platform"])]

/-- Function `detect_sector` of the source: first label with any keyword
occurring in the lower-cased text + joined categories. -/
def detect_sector (text : String) (categories : List String) : String :=
  let lowered := lowerStr (text ++ " " ++ joinSpace categories)
  match SECTOR_RULES.find? (fun rule => rule.2.any (fun token => strContains lowered token)) with
  | some rule => rule.1
  | none => ""

/-- Function `derive_opportunity_type` of the source. -/
def derive_opportunity_type (category : String) : String :=
  if category == "Funding" then "Grant/Funding"
  else if category == "Procurement" then "Tender/Procurement"
  else if category == "Humanitarian Update" then "Humanitarian"
  else if category == "Policy Update" then "Policy"
  else "Program"

/-- Python str(item["timestamp"] or ""). -/
def pyStrOrEmpty (v : JVal) : String :=
  if v.truthy then pyStr v else ""

/-- Function `dedupe_key` of the source; the sha256 hexdigest over the joined
content fields is the external parameter `hash`. -/
def dedupe_key (hash : String → String) (item : CoercedItem) : String :=
  if item.url != "" then lowerStr item.url
  else
    hash (joinWith "|"
      [lowerStr item.title, lowerStr item.summary, lowerStr item.feed_source,
       pyStrOrEmpty item.timestamp])

/-- Region token list of `detect_region`, in order. -/
def REGION_TOKENS : List String :=
  ["global", "africa", "asia", "latin america", "middle east", "europe",
   "caribbean", "pacific", "ukraine", "sudan", "gaza"]

/-- Function `detect_region` of the source: first matching token, title-cased. -/
def detect_region (text : String) : String :=
  let lower_text := lowerStr text
  match REGION_TOKENS.find? (fun token => strContains lower_text token) with
  | some token => pyTitle token
  | none => ""

/-- One entry of the classifier rule table: category, strong terms, medium
terms, signal string. -/
structure SignalRule where
  category : String
  strong : List String
  medium : List String
  signal : String

/-- Rule table of `classify_signal`, in order. -/
def CLASSIFY_RULES : List SignalRule :=
  [⟨"Funding",
    ["grant", "funding", "call for proposals", "fund", "financial support", "award"],
    ["open call", "call for expressions of interest", "apply now", "funding window"],
    "Funding call or grant opportunity"⟩,
   ⟨"Procurement",
    ["tender", "procurement", "rfp", "request for proposal", "bid", "invitation to bid"],
    ["tender notice", "solicitation", "vendor", "contract award"],
    "Procurement or tender notice"⟩,
   ⟨"Humanitarian Update",
    ["humanitarian", "emergency", "crisis", "appeal", "response plan", "relief"],
    ["flash appeal", "urgent", "displacement", "outbreak"],
    "Humanitarian emergency or response update"⟩,
   ⟨"Development Program",
    ["program launch", "development program", "initiative", "capacity building", "pilot"],
    ["partnership", "implementation", "project start", "technical assistance"],
    "Development program or implementation activity"⟩,
   ⟨"Policy Update",
    ["policy", "regulation", "strategy", "framework", "legislation"],
    ["approved", "adopted", "policy shift", "guidance"],
    "Policy, regulation, or strategic update"⟩]

/-- Count of rule terms present in the lower-cased text, each term counted at
most once. -/
def countTermMatches (terms : List String) (lower_text : String) : Nat :=
  (terms.filter (fun term => strContains lower_text term)).length

/-- Strength derivation of `classify_signal` for a winning rule. -/
def strengthFor (strong_matches medium_matches : Nat) : Nat :=
  if 2 ≤ strong_matches then 3
  else if 1 ≤ strong_matches ∨ 2 ≤ medium_matches then 2
  else 1

/-- Raw score of one rule against the lower-cased text: twice the strong-term
count plus the medium-term count. -/
def ruleRawScore (lower_text : String) (rule : SignalRule) : Nat :=
  countTermMatches rule.strong lower_text * 2 + countTermMatches rule.medium lower_text

/-- Strength the classifier would assign if the rule won. -/
def ruleStrength (lower_text : String) (rule : SignalRule) : Nat :=
  strengthFor (countTermMatches rule.strong lower_text) (countTermMatches rule.medium lower_text)

/-- Running best of the classifier loop. -/
structure BestState where
  category : String
  signal : String
  strength : Nat
  score : Nat

/-- Loop of `classify_signal`: a rule replaces the running best only when its
score is strictly greater. -/
def classifyGo (lower_text : String) : List SignalRule → BestState → BestState
  | [], best => best
  | rule :: rest, best =>
    let strong_matches := countTermMatches rule.strong lower_text
    let medium_matches := countTermMatches rule.medium lower_text
    let score := strong_matches * 2 + medium_matches
    if best.score < score then
      classifyGo lower_text rest
        ⟨rule.category, rule.signal, strengthFor strong_matches medium_matches, score⟩
    else
      classifyGo lower_text rest best

/-- Function `classify_signal` of the source: (category, key signal, strength). -/
def classify_signal (text : String) : String × String × Nat :=
  let best := classifyGo (lowerStr text) CLASSIFY_RULES
    ⟨"Development Program", "Development program or implementation activity", 1, 0⟩
  (best.category, best.signal, best.strength)

/-- Block list of `is_irrelevant`. -/
def IRRELEVANT_TOKENS : List String :=
  ["opinion", "thought leadership", "podcast", "webinar recap", "newsletter",
   "career", "hiring", "product release", "generic update"]

/-- Text scanned by `is_irrelevant` and `impact_score`: title, summary and
raw_content only (the categories list is not included). -/
def itemText (item : CoercedItem) : String :=
  lowerStr (item.title ++ " " ++ item.summary ++ " " ++ item.raw_content)

/-- Function `is_irrelevant` of the source. -/
def is_irrelevant (item : CoercedItem) (category : String) (strength : Nat) : Bool :=
  let text := itemText item
  IRRELEVANT_TOKENS.any (fun token => strContains text token)
  || (category == "Development Program" && strength == 1 && strContains text "blog"
      && !strContains text "call" && !strContains text "fund")

/-- Function `recency_score` of the source; (now - ts).days of a Python
timedelta is floor division of the span in seconds by 86400. -/
def recency_score (ts now_utc : Int) : Int :=
  let age_days := Int.fdiv (now_utc - ts) 86400
  if age_days ≤ 7 then 3
  else if age_days ≤ 14 then 2
  else 1

/-- High-impact token list of `impact_score`. -/
def HIGH_IMPACT_TOKENS : List String :=
  ["global", "multi-country", "nationwide", "emergency", "appeal", "million", "billion", "urgent"]

/-- Medium-impact token list of `impact_score`. -/
def MEDIUM_IMPACT_TOKENS : List String :=
  ["regional", "national", "program", "policy", "agriculture", "health",
   "education", "climate", "food security"]

/-- Function `impact_score` of the source. -/
def impact_score (item : CoercedItem) (category : String) : Int :=
  let text := itemText item
  if HIGH_IMPACT_TOKENS.any (fun token => strContains text token) then 2
  else if MEDIUM_IMPACT_TOKENS.any (fun token => strContains text token)
      || (category == "Funding" || category == "Procurement" || category == "Humanitarian Update") then 1
  else 0

/-- Function `completeness_score` of the source. -/
def completeness_score (item : CoercedItem) (region : String) : Int :=
  let fields_present : Nat :=
    (if item.title != "" then 1 else 0)
    + (if item.summary != "" || item.raw_content != "" then 1 else 0)
    + (if item.url != "" then 1 else 0)
    + (if item.feed_source != "" || item.author != "" then 1 else 0)
    + (if region != "" then 1 else 0)
  if 5 ≤ fields_present then 2
  else if 3 ≤ fields_present then 1
  else 0

/-- Function `priority_for_score` of the source. -/
def priority_for_score (score : Int) : String :=
  if 8 ≤ score then "HIGH PRIORITY"
  else if 5 ≤ score then "MEDIUM PRIORITY"
  else "LOW PRIORITY"

/-! ## Payload extraction and item normalization -/

/-- List comprehension of `coerce_item` over a list-valued categories field:
str(entry) kept when its stripped form is non-empty. -/
def categoriesFromList : JList → List String
  | .nil => []
  | .cons v rest =>
    if pyStrip (pyStr v) != "" then pyStr v :: categoriesFromList rest
    else categoriesFromList rest

/-- Categories tag list of `coerce_item`: stringified entries of a list value,
stripped segments of a comma-separated string value, else empty. -/
def categoryValues (item : JFields) : List String :=
  match jget item "categories" with
  | .jarr entries => categoriesFromList entries
  | .jstr s => ((splitOnComma s).map pyStrip).filter (fun seg => seg != "")
  | _ => []

/-- Combined title+summary+raw_content text scanned by `coerce_item` for the
funding amount and the sector. -/
def combinedText (item : JFields) : String :=
  normalize_text (getStr1 item "title" ++ " " ++ getStr2 item "summary" "description"
    ++ " " ++ getStr2 item "raw_content" "content")

/-- Function `coerce_item` of the source. -/
def coerce_item (item : JFields) : CoercedItem :=
  let category_values := categoryValues item
  let combined_text := combinedText item
  let explicit_amount := normalize_text (getStr4 item "amount" "grant_amount" "funding_amount" "value")
  let extracted_amount :=
    if explicit_amount != "" then explicit_amount else extract_money_value combined_text
  let explicit_sector := normalize_text (getStr2 item "sector" "focus_sector")
  let inferred_sector :=
    if explicit_sector != "" then explicit_sector else detect_sector combined_text category_values
  { timestamp :=
      pyOr (jget item "timestamp") (pyOr (jget item "pubDate") (pyOr (jget item "published")
        (pyOr (jget item "published_at") (pyOr (jget item "published_date")
          (pyOr (jget item "isoDate") (pyOr (jget item "date")
            (pyOr (jget item "created_at") (jget item "updated_at"))))))))
    feed_source := normalize_text (pyStr (pyOr (jget item "feed_source")
      (pyOr (jget item "source") (.jstr "Unknown Source"))))
    title := normalize_text (pyStr (pyOr (jget item "title") (.jstr "Untitled item")))
    url := select_best_url item
    summary := normalize_text (getStr3 item "summary" "description" "contentSnippet")
    raw_content := normalize_text (getStr3 item "raw_content" "content" "content:encoded")
    author := normalize_text (getStr1 item "author")
    categories := category_values
    sector := inferred_sector
    funding_amount := extracted_amount }

/-- Function `parse_timestamp` of the source: None for a falsy value, else
dateutil parsing of the stringified value — the external parameter
`parseDate`, returning a UTC timestamp in epoch seconds, none on failure. -/
def parse_timestamp (parseDate : String → Option Int) (value : JVal) : Option Int :=
  if value.truthy then parseDate (pyStr value) else none

/-- Keep only the mapping-shaped entries of a JSON list. -/
def onlyObjs : JList → List JFields
  | .nil => []
  | .cons (.jobj fields) rest => fields :: onlyObjs rest
  | .cons _ rest => onlyObjs rest

/-- List-valued lookup used by `extract_items`: the list stored under the key,
none when the key is absent or its value is not a list. -/
def listAt (o : JFields) (k : String) : Option JList :=
  match jget o k with
  | .jarr entries => some entries
  | _ => none

/-- Bool test corresponding to `listAt`. -/
def isListVal : JVal → Bool
  | .jarr _ => true
  | _ => false

/-- Loop of `extract_items` over the fixed item-list key set: first key whose
value is a list. -/
def firstListAtKeys (fields : JFields) : List String → Option JList
  | [] => none
  | k :: rest =>
    match listAt fields k with
    | some entries => some entries
    | none => firstListAtKeys fields rest

/-- Item-list keys checked by `extract_items`, in order. -/
def ITEM_LIST_KEYS : List String :=
  ["items", "rss_items", "entries", "records", "data", "opportunities"]

/-- Function `extract_items` of the source.  json.loads is the external
parameter `jp` (none models a parse failure).  The Nat fuel bounds the
recursion depth, which is unbounded in Python; every claim is stated with
sufficient fuel. -/
def extract_items (jp : String → Option JVal) : Nat → JVal → List JFields
  | 0, _ => []
  | fuel + 1, payload =>
    match payload with
    | .jarr entries => onlyObjs entries
    | .jstr s =>
      let text := pyStrip s
      if text = "" then []
      else
        match jp text with
        | some parsed => extract_items jp fuel parsed
        | none => []
    | .jobj fields =>
      match firstListAtKeys fields ITEM_LIST_KEYS with
      | some entries => onlyObjs entries
      | none =>
        let n1 := extract_items jp fuel (jget fields "payload")
        if !n1.isEmpty then n1
        else
          let n2 := extract_items jp fuel (jget fields "client_payload")
          if !n2.isEmpty then n2
          else
            let n3 := extract_items jp fuel (jget fields "body")
            if !n3.isEmpty then n3
            else
              let n4 := extract_items jp fuel (jget fields "event")
              if !n4.isEmpty then n4
              else if jhas fields "title" && jhas fields "url" then [fields]
              else []
    | _ => []

/-! ## Scoring and pipeline orchestration -/

/-- Combined text handed to the classifier by `score_item`: title, summary,
raw_content and the joined categories list. -/
def score_text (item : CoercedItem) : String :=
  item.title ++ " " ++ item.summary ++ " " ++ item.raw_content ++ " " ++ joinSpace item.categories

/-- Function `score_item` of the source: none when the item is irrelevant,
else the scored item. -/
def score_item (item : CoercedItem) (timestamp now_utc : Int) : Option IntelItem :=
  let combined_text := score_text item
  let cls := classify_signal combined_text
  if is_irrelevant item cls.1 cls.2.2 then none
  else
    let recency := recency_score timestamp now_utc
    let region := detect_region combined_text
    let impact := impact_score item cls.1
    let completeness := completeness_score item region
    let score := max 1 (min 10 (recency + (cls.2.2 : Int) + impact + completeness))
    some
      { timestamp := timestamp
        feed_source := item.feed_source
        title := item.title
        url := item.url
        summary := item.summary
        raw_content := item.raw_content
        author := item.author
        categories := item.categories
        category := cls.1
        sector := item.sector
        funding_amount := item.funding_amount
        opportunity_type := derive_opportunity_type cls.1
        key_signal := cls.2.1
        score := score
        priority := priority_for_score score }

/-- Strict descending comparison on the Python sort key (score, timestamp). -/
def itemKeyGt (a b : IntelItem) : Bool :=
  decide (b.score < a.score) || (decide (a.score = b.score) && decide (b.timestamp < a.timestamp))

/-- Insertion step of the stable descending sort: the new element goes before
the first element whose key is not strictly greater. -/
def insertByKey (x : IntelItem) : List IntelItem → List IntelItem
  | [] => [x]
  | y :: rest => if itemKeyGt y x then y :: insertByKey x rest else x :: y :: rest

/-- Model of Python list.sort(key=(score, timestamp), reverse=True): a stable
sort placing higher (score, timestamp) keys first. -/
def sortItems : List IntelItem → List IntelItem
  | [] => []
  | x :: rest => insertByKey x (sortItems rest)

/-- Loop of `build_report_items` over the raw items, carrying the seen dedupe
keys and the accumulated scored items. -/
def buildGo (parseDate : String → Option Int) (hash : String → String) (now_utc : Int) :
    List JFields → List String → List IntelItem → List IntelItem
  | [], _, final_items => final_items
  | raw_item :: rest, seen, final_items =>
    let item := coerce_item raw_item
    match parse_timestamp parseDate item.timestamp with
    | none => buildGo parseDate hash now_utc rest seen final_items
    | some timestamp =>
      if timestamp < now_utc - 30 * 86400 then
        buildGo parseDate hash now_utc rest seen final_items
      else
        let key := dedupe_key hash item
        if seen.contains key then
          buildGo parseDate hash now_utc rest seen final_items
        else
          match score_item item timestamp now_utc with
          | some scored => buildGo parseDate hash now_utc rest (key :: seen) (final_items ++ [scored])
          | none => buildGo parseDate hash now_utc rest (key :: seen) final_items

/-- Function `build_report_items` of the source: normalize, parse timestamps,
apply the 30-day cutoff, deduplicate, score, then sort by (score, timestamp)
descending. -/
def build_report_items (parseDate : String → Option Int) (hash : String → String)
    (raw_items : List JFields) (now_utc : Int) : List IntelItem :=
  sortItems (buildGo parseDate hash now_utc raw_items [] [])

/-- Parse/cutoff stage of `build_report_items`, exposed for the stage
factorization theorems: the coerced items with parsed timestamps surviving
the 30-day cutoff, in order. -/
def prefilter (parseDate : String → Option Int) (now_utc : Int) (raws : List JFields) :
    List (CoercedItem × Int) :=
  raws.filterMap (fun raw =>
    let item := coerce_item raw
    match parse_timestamp parseDate item.timestamp with
    | none => none
    | some ts => if ts < now_utc - 30 * 86400 then none else some (item, ts))

/-- Dedup stage of `build_report_items`, exposed for the stage factorization
theorems: keep the first occurrence of each dedupe key not already seen. -/
def dedupFirst (hash : String → String) : List String → List (CoercedItem × Int) → List (CoercedItem × Int)
  | _, [] => []
  | seen, p :: rest =>
    let key := dedupe_key hash p.1
    if seen.contains key then dedupFirst hash seen rest
    else p :: dedupFirst hash (key :: seen) rest

/-! ## Concrete inputs used by the claims -/

/-- Trivial JSON parser standing in for json.loads where a parse failure (or
no string recursion at all) is wanted. -/
def jpNone : String → Option JVal := fun _ => none

/-- Date parser recognising exactly one timestamp string. -/
def pdAt (key : String) (v : Int) : String → Option Int :=
  fun s => if s = key then some v else none

/-- Degenerate content hash (collisions are irrelevant for URL-keyed items). -/
def hashNull : String → String := fun _ => ""

/-- Raw record of the end-to-end scenario of claim C1. -/
def c1Raw : JFields :=
  jfieldsOf
    [("title", .jstr "Emergency Appeal for Sudan Crisis Response"),
     ("summary", .jstr "Global flash appeal for urgent humanitarian relief, $50 million requested"),
     ("url", .jstr "https://reliefweb.int/x"),
     ("timestamp", .jstr "2026-01-05T00:00:00+00:00")]

/-- Payload envelope of claim C1. -/
def c1Payload : JVal :=
  .jobj (jfieldsOf [("items", .jarr (jlistOf [.jobj c1Raw]))])

/-- Scored item the C1 pipeline run is expected to produce, three days
(259200 seconds) before the given instant. -/
def c1Expected (now : Int) : IntelItem :=
  { timestamp := now - 259200
    feed_source := "Unknown Source"
    title := "Emergency Appeal for Sudan Crisis Response"
    url := "https://reliefweb.int/x"
    summary := "Global flash appeal for urgent humanitarian relief, $50 million requested"
    raw_content := ""
    author := ""
    categories := []
    category := "Humanitarian Update"
    sector := ""
    funding_amount := "$50 million"
    opportunity_type := "Humanitarian"
    key_signal := "Humanitarian emergency or response update"
    score := 10
    priority := "HIGH PRIORITY" }

/-- Raw record with a fresh timestamp but a block-listed token in the title,
dropped by the irrelevance filter (claim C3 counterexample). -/
def c3FreshRaw : JFields :=
  jfieldsOf [("title", .jstr "Monthly newsletter roundup"), ("timestamp", .jstr "tick")]

/-- Neutral raw record surviving classification and the irrelevance filter,
used for the 30-day boundary instances of claim C3. -/
def c3Plain : JFields :=
  jfieldsOf [("title", .jstr "Hello world"), ("timestamp", .jstr "tick")]

/-- First of the two case-differing-URL records of claim C5. -/
def c5RawA : JFields :=
  jfieldsOf [("title", .jstr "A"), ("url", .jstr "https://ReliefWeb.int/x"),
             ("timestamp", .jstr "tick")]

/-- Second of the two case-differing-URL records of claim C5. -/
def c5RawB : JFields :=
  jfieldsOf [("title", .jstr "B"), ("url", .jstr "https://reliefweb.int/X"),
             ("timestamp", .jstr "tick")]

/-- Record with a known source and no URL anywhere (claim C6). -/
def c6ReliefObj : JFields :=
  jfieldsOf [("source", .jstr "ReliefWeb")]

/-- Record whose only URL is a placeholder and whose source is unknown
(claim C6). -/
def c6PlaceholderObj : JFields :=
  jfieldsOf [("title", .jstr "x"), ("url", .jstr "https://example.com/x")]

/-- Record whose only URL is a placeholder but whose source is in the
fallback table (claim C6). -/
def c6Both : JFields :=
  jfieldsOf [("url", .jstr "https://example.com/x"), ("source", .jstr "ReliefWeb")]

/-- Neutral coerced item used for the category-sensitivity instances of
claim C10. -/
def c10Base : CoercedItem :=
  ⟨.jstr "tick", "Src", "Field visit notes", "", "Partner visit summary", "", "", [], "", ""⟩

/-- The same item with a block-listed token and the word blog only in the
categories list (claim C10). -/
def c10News : CoercedItem :=
  ⟨.jstr "tick", "Src", "Field visit notes", "", "Partner visit summary", "", "",
   ["newsletter", "blog"], "", ""⟩

/-- The same item with policy keywords only in the categories list
(claim C10). -/
def c10Policy : CoercedItem :=
  ⟨.jstr "tick", "Src", "Field visit notes", "", "Partner visit summary", "", "",
   ["policy regulation strategy"], "", ""⟩

/-- Simple funding-flavoured item used to instantiate the scoring-bound
theorem at a concrete input. -/
def w9Item : CoercedItem :=
  ⟨.jstr "tick", "Src", "Grant call", "", "Summary", "", "", [], "", ""⟩

/-- Scored item `score_item` produces from `w9Item` at instant 0. -/
def w9Scored : IntelItem :=
  ⟨0, "Src", "Grant call", "", "Summary", "", "", [], "Funding", "", "",
   "Grant/Funding", "Funding call or grant opportunity", 7, "MEDIUM PRIORITY"⟩

/-! ## Helper lemmas -/

/-- Evaluation of `build_report_items` on a single raw item whose timestamp
parses and survives the 30-day cutoff. -/
theorem build_report_items_single (pd : String → Option Int) (h : String → String) (now : Int)
    (raw : JFields) (ts : Int)
    (hts : parse_timestamp pd (coerce_item raw).timestamp = some ts)
    (hcut : ¬ ts < now - 30 * 86400) :
    build_report_items pd h [raw] now =
      match score_item (coerce_item raw) ts now with
      | some scored => [scored]
      | none => [] := by
  simp only [build_report_items, buildGo, hts]
  rw [if_neg hcut]
  cases hsc : score_item (coerce_item raw) ts now with
  | none => simp [hsc, buildGo, sortItems]
  | some scored => simp [hsc, buildGo, sortItems, insertByKey]

/-- Factorization of the `build_report_items` loop through the exposed
parse/cutoff and dedup stages. -/
theorem buildGo_eq_stages (pd : String → Option Int) (h : String → String) (now : Int) :
    ∀ (raws : List JFields) (seen : List String) (acc : List IntelItem),
      buildGo pd h now raws seen acc =
        acc ++ (dedupFirst h seen (prefilter pd now raws)).filterMap
          (fun p => score_item p.1 p.2 now) := by
  intro raws
  induction raws with
  | nil => intro seen acc; simp [buildGo, prefilter, dedupFirst]
  | cons raw rest ih =>
    intro seen acc
    simp only [buildGo, prefilter, List.filterMap_cons]
    cases hts : parse_timestamp pd (coerce_item raw).timestamp with
    | none =>
      simpa [prefilter] using ih seen acc
    | some ts =>
      by_cases hcut : ts < now - 2592000
      · simpa [hcut, prefilter] using ih seen acc
      · by_cases hseen : dedupe_key h (coerce_item raw) ∈ seen
        · simpa [hcut, hseen, dedupFirst, prefilter] using ih seen acc
        · cases hsc : score_item (coerce_item raw) ts now with
          | none =>
            simpa [hcut, hseen, dedupFirst, prefilter, hsc]
              using ih (dedupe_key h (coerce_item raw) :: seen) acc
          | some scored =>
            simpa [hcut, hseen, dedupFirst, prefilter, hsc]
              using ih (dedupe_key h (coerce_item raw) :: seen) (acc ++ [scored])
  

/-- The dedup stage removes elements but never reorders: its output is a
sublist of its input. -/
theorem dedupFirst_sublist (h : String → String) :
    ∀ (l : List (CoercedItem × Int)) (seen : List String), (dedupFirst h seen l).Sublist l := by
  intro l
  induction l with
  | nil => intro seen; simp [dedupFirst]
  | cons p rest ih =>
    intro seen
    by_cases hseen : dedupe_key h p.1 ∈ seen
    · simpa [dedupFirst, hseen] using ((ih seen).cons p)
    · simpa [dedupFirst, hseen] using (List.Sublist.cons₂ p (ih (dedupe_key h p.1 :: seen)))

/-- For any key not already seen, the first surviving element with that key is
exactly the first input element with that key. -/
theorem dedupFirst_find (h : String → String) :
    ∀ (l : List (CoercedItem × Int)) (seen : List String) (k : String), k ∉ seen →
      (dedupFirst h seen l).find? (fun p => dedupe_key h p.1 == k)
        = l.find? (fun p => dedupe_key h p.1 == k) := by
  intro l
  induction l with
  | nil => intro seen k hk; simp [dedupFirst]
  | cons p rest ih =>
    intro seen k hk
    by_cases hpk : dedupe_key h p.1 = k
    · have hseen : dedupe_key h p.1 ∉ seen := by rw [hpk]; exact hk
      simp [dedupFirst, hseen, hk, List.find?_cons, hpk]
    · by_cases hseen : dedupe_key h p.1 ∈ seen
      · rw [List.find?_cons_of_neg _ (by simpa using hpk)]
        simpa [dedupFirst, hseen] using ih seen k hk
      · have hk2 : k ∉ dedupe_key h p.1 :: seen := by
          intro hmem
          rcases List.mem_cons.mp hmem with hgot | hgot
          · exact hpk hgot.symm
          · exact hk hgot
        have := ih (dedupe_key h p.1 :: seen) k hk2
        simp only [dedupFirst]
        rw [if_neg (by simpa using hseen)]
        rw [List.find?_cons_of_neg _ (by simpa using hpk),
            List.find?_cons_of_neg _ (by simpa using hpk)]
        exact this

/-- The dedup keys of the surviving elements are pairwise distinct, and none
of them was already seen. -/
theorem dedupFirst_keys_nodup (h : String → String) :
    ∀ (l : List (CoercedItem × Int)) (seen : List String),
      ((dedupFirst h seen l).map (fun p => dedupe_key h p.1)).Nodup
      ∧ ∀ p ∈ dedupFirst h seen l, dedupe_key h p.1 ∉ seen := by
  intro l
  induction l with
  | nil => intro seen; simp [dedupFirst]
  | cons p rest ih =>
    intro seen
    by_cases hseen : dedupe_key h p.1 ∈ seen
    · simpa [dedupFirst, hseen] using ih seen
    · obtain ⟨ihn, ihs⟩ := ih (dedupe_key h p.1 :: seen)
      constructor
      · simp only [dedupFirst]
        rw [if_neg (by simpa using hseen)]
        simp only [List.map_cons, List.nodup_cons]
        refine ⟨?_, ihn⟩
        intro hmem
        rcases List.mem_map.mp hmem with ⟨q, hq, hkey⟩
        exact (ihs q hq) (by rw [hkey]; exact List.mem_cons_self _ _)
      · intro q hq
        simp only [dedupFirst] at hq
        rw [if_neg (by simpa using hseen)] at hq
        rcases List.mem_cons.mp hq with hgot | hgot
        · rw [hgot]; exact hseen
        · intro habs
          exact (ihs q hgot) (List.mem_cons_of_mem _ habs)

/-- The classifier loop keeps its running best when no remaining rule scores
strictly higher. -/
theorem classifyGo_of_le (lt : String) :
    ∀ (rules : List SignalRule) (best : BestState),
      (∀ r ∈ rules, ruleRawScore lt r ≤ best.score) → classifyGo lt rules best = best := by
  intro rules
  induction rules with
  | nil => intro best hle; rfl
  | cons r rest ih =>
    intro best hle
    have hr : ruleRawScore lt r ≤ best.score := hle r (List.mem_cons_self _ _)
    have hr2 : ¬ best.score < countTermMatches r.strong lt * 2 + countTermMatches r.medium lt :=
      Nat.not_lt.mpr hr
    simp only [classifyGo]
    rw [if_neg hr2]
    exact ih best (fun q hq => hle q (List.mem_cons_of_mem _ hq))

/-- The classifier loop returns the data of the first rule attaining the
maximal raw score, whenever that score beats the running best. -/
theorem classifyGo_first_max (lt : String) :
    ∀ (rules : List SignalRule) (i : Nat) (hi : i < rules.length) (best : BestState),
      best.score < ruleRawScore lt (rules.get ⟨i, hi⟩) →
      (∀ j (hj : j < rules.length),
        ruleRawScore lt (rules.get ⟨j, hj⟩) ≤ ruleRawScore lt (rules.get ⟨i, hi⟩)) →
      (∀ j (hj : j < i),
        ruleRawScore lt (rules.get ⟨j, Nat.lt_trans hj hi⟩) < ruleRawScore lt (rules.get ⟨i, hi⟩)) →
      classifyGo lt rules best =
        ⟨(rules.get ⟨i, hi⟩).category, (rules.get ⟨i, hi⟩).signal,
         ruleStrength lt (rules.get ⟨i, hi⟩), ruleRawScore lt (rules.get ⟨i, hi⟩)⟩ := by
  intro rules
  induction rules with
  | nil => intro i hi; exact absurd hi (by simp)
  | cons r rest ih =>
    intro i hi best hbest hmax hstrict
    cases i with
    | zero =>
      have hbest2 : best.score < countTermMatches r.strong lt * 2 + countTermMatches r.medium lt :=
        hbest
      simp only [classifyGo]
      rw [if_pos hbest2]
      apply classifyGo_of_le
      intro q hq
      rcases List.mem_iff_get.mp hq with ⟨n, hn⟩
      have := hmax (n.val + 1) (Nat.succ_lt_succ n.isLt)
      rw [← hn]
      exact this
    | succ i2 =>
      have hi2 : i2 < rest.length := Nat.lt_of_succ_lt_succ hi
      have h0 : ruleRawScore lt r < ruleRawScore lt ((r :: rest).get ⟨i2 + 1, hi⟩) :=
        hstrict 0 (Nat.succ_pos i2)
      have hmax2 : ∀ j (hj : j < rest.length),
          ruleRawScore lt (rest.get ⟨j, hj⟩) ≤ ruleRawScore lt (rest.get ⟨i2, hi2⟩) :=
        fun j hj => hmax (j + 1) (Nat.succ_lt_succ hj)
      have hstrict2 : ∀ j (hj : j < i2),
          ruleRawScore lt (rest.get ⟨j, Nat.lt_trans hj hi2⟩)
            < ruleRawScore lt (rest.get ⟨i2, hi2⟩) :=
        fun j hj => hstrict (j + 1) (Nat.succ_lt_succ hj)
      by_cases hbr : best.score < countTermMatches r.strong lt * 2 + countTermMatches r.medium lt
      · simp only [classifyGo]
        rw [if_pos hbr]
        exact ih i2 hi2 _ h0 hmax2 hstrict2
      · simp only [classifyGo]
        rw [if_neg hbr]
        exact ih i2 hi2 best hbest hmax2 hstrict2

/-- The strength stored in the running best stays in the range 1..3. -/
theorem classifyGo_strength_bounds (lt : String) :
    ∀ (rules : List SignalRule) (best : BestState), 1 ≤ best.strength → best.strength ≤ 3 →
      1 ≤ (classifyGo lt rules best).strength ∧ (classifyGo lt rules best).strength ≤ 3 := by
  intro rules
  induction rules with
  | nil => intro best h1 h3; exact ⟨h1, h3⟩
  | cons r rest ih =>
    intro best h1 h3
    simp only [classifyGo]
    by_cases hbr : best.score < countTermMatches r.strong lt * 2 + countTermMatches r.medium lt
    · rw [if_pos hbr]
      apply ih
      · simp only [strengthFor]
        split_ifs <;> omega
      · simp only [strengthFor]
        split_ifs <;> omega
    · rw [if_neg hbr]
      exact ih best h1 h3

/-- The score stored by `score_item` is the clamped sum of the four component
scores computed from the item itself. -/
theorem score_item_some_score (item : CoercedItem) (ts now : Int) (scored : IntelItem)
    (hsc : score_item item ts now = some scored) :
    scored.score = max 1 (min 10 (recency_score ts now
      + ((classify_signal (score_text item)).2.2 : Int)
      + impact_score item (classify_signal (score_text item)).1
      + completeness_score item (detect_region (score_text item)))) := by
  simp only [score_item] at hsc
  by_cases hirr : is_irrelevant item (classify_signal (score_text item)).1
      (classify_signal (score_text item)).2.2 = true
  · rw [if_pos hirr] at hsc
    exact absurd hsc (by simp)
  · rw [if_neg hirr] at hsc
    have := Option.some_injective _ hsc
    rw [← this]

/-- An item the irrelevance filter does not flag is always scored. -/
theorem score_item_isSome (item : CoercedItem) (ts now : Int)
    (h : is_irrelevant item (classify_signal (score_text item)).1
      (classify_signal (score_text item)).2.2 = false) :
    (score_item item ts now).isSome = true := by
  simp [score_item, h]

/-! ## Claim theorems -/

/-- Claim C7: the priority tier derived from an integer score is HIGH exactly
when the score is at least 8, MEDIUM exactly when it is between 5 and 7, and
LOW exactly when it is at most 4; in particular score 8 maps to HIGH, 5 to
MEDIUM and 4 to LOW. -/
theorem claim_c7 (score : Int) :
    (priority_for_score score = "HIGH PRIORITY" ↔ 8 ≤ score)
    ∧ (priority_for_score score = "MEDIUM PRIORITY" ↔ 5 ≤ score ∧ score ≤ 7)
    ∧ (priority_for_score score = "LOW PRIORITY" ↔ score ≤ 4)
    ∧ priority_for_score 8 = "HIGH PRIORITY"
    ∧ priority_for_score 5 = "MEDIUM PRIORITY"
    ∧ priority_for_score 4 = "LOW PRIORITY" := by
  refine ⟨?_, ?_, ?_, rfl, rfl, rfl⟩ <;>
    · unfold priority_for_score
      split_ifs <;> simp_all <;> omega

/-- Claim C4: the classifier picks the rule with the strictly highest raw
score (twice the strong-term count plus the medium-term count, each term
counted once, substring match on the lower-cased text); on ties the rule
earliest in the five-entry table wins, and when every rule scores 0 the
result is the Development Program default with strength 1. -/
theorem claim_c4 (text : String) :
    ((∀ r ∈ CLASSIFY_RULES, ruleRawScore (lowerStr text) r = 0) →
      classify_signal text
        = ("Development Program", "Development program or implementation activity", 1))
    ∧ (∀ i (hi : i < CLASSIFY_RULES.length),
        0 < ruleRawScore (lowerStr text) (CLASSIFY_RULES.get ⟨i, hi⟩) →
        (∀ j (hj : j < CLASSIFY_RULES.length),
          ruleRawScore (lowerStr text) (CLASSIFY_RULES.get ⟨j, hj⟩)
            ≤ ruleRawScore (lowerStr text) (CLASSIFY_RULES.get ⟨i, hi⟩)) →
        (∀ j (hj : j < i),
          ruleRawScore (lowerStr text) (CLASSIFY_RULES.get ⟨j, Nat.lt_trans hj hi⟩)
            < ruleRawScore (lowerStr text) (CLASSIFY_RULES.get ⟨i, hi⟩)) →
        classify_signal text
          = ((CLASSIFY_RULES.get ⟨i, hi⟩).category, (CLASSIFY_RULES.get ⟨i, hi⟩).signal,
             ruleStrength (lowerStr text) (CLASSIFY_RULES.get ⟨i, hi⟩))) := by
  constructor
  · intro hz
    simp only [classify_signal]
    rw [classifyGo_of_le (lowerStr text) CLASSIFY_RULES _
      (fun r hr => Nat.le_of_eq (hz r hr))]
  · intro i hi hpos hmax hstrict
    simp only [classify_signal]
    rw [classifyGo_first_max (lowerStr text) CLASSIFY_RULES i hi _ hpos hmax hstrict]

/-- Witness for claim C4: on the tying text "grant tender" both Funding and
Procurement score 2, and the earlier Funding rule wins with strength 2. -/
theorem claim_c4_witness :
    classify_signal "grant tender" = ("Funding", "Funding call or grant opportunity", 2) := by
  have h := (claim_c4 "grant tender").2 0 (by decide) (by decide) (by decide)
    (fun j hj => absurd hj (Nat.not_lt_zero j))
  exact h.trans rfl

/-- Claim C9: every component score is in its small range (recency 1..3,
strength 1..3, impact 0..2, completeness 0..2), so the raw sum is between 2
and 10, the clamp to 1..10 never changes it, and every produced item has
score at least 2. -/
theorem claim_c9 (item : CoercedItem) (ts now : Int) (category region : String) :
    (1 ≤ recency_score ts now ∧ recency_score ts now ≤ 3)
    ∧ (1 ≤ (classify_signal (score_text item)).2.2 ∧ (classify_signal (score_text item)).2.2 ≤ 3)
    ∧ (0 ≤ impact_score item category ∧ impact_score item category ≤ 2)
    ∧ (0 ≤ completeness_score item region ∧ completeness_score item region ≤ 2)
    ∧ ∀ scored, score_item item ts now = some scored →
        scored.score = recency_score ts now + ((classify_signal (score_text item)).2.2 : Int)
            + impact_score item (classify_signal (score_text item)).1
            + completeness_score item (detect_region (score_text item))
        ∧ 2 ≤ scored.score ∧ scored.score ≤ 10 := by
  have hrec : 1 ≤ recency_score ts now ∧ recency_score ts now ≤ 3 := by
    simp only [recency_score]
    split_ifs <;> omega
  have hstr : 1 ≤ (classify_signal (score_text item)).2.2
      ∧ (classify_signal (score_text item)).2.2 ≤ 3 :=
    classifyGo_strength_bounds (lowerStr (score_text item)) CLASSIFY_RULES
      ⟨"Development Program", "Development program or implementation activity", 1, 0⟩
      (by decide) (by decide)
  have himp : ∀ c, 0 ≤ impact_score item c ∧ impact_score item c ≤ 2 := by
    intro c
    simp only [impact_score]
    split_ifs <;> omega
  have hcom : ∀ rg, 0 ≤ completeness_score item rg ∧ completeness_score item rg ≤ 2 := by
    intro rg
    simp only [completeness_score]
    split_ifs <;> omega
  refine ⟨hrec, hstr, himp category, hcom region, ?_⟩
  intro scored hsc
  have hval := score_item_some_score item ts now scored hsc
  have h1 := himp (classify_signal (score_text item)).1
  have h2 := hcom (detect_region (score_text item))
  have hlo : (2 : Int) ≤ recency_score ts now + ((classify_signal (score_text item)).2.2 : Int)
      + impact_score item (classify_signal (score_text item)).1
      + completeness_score item (detect_region (score_text item)) := by omega
  have hhi : recency_score ts now + ((classify_signal (score_text item)).2.2 : Int)
      + impact_score item (classify_signal (score_text item)).1
      + completeness_score item (detect_region (score_text item)) ≤ 10 := by omega
  rw [min_eq_right hhi, max_eq_right (by omega)] at hval
  exact ⟨hval, by omega, by omega⟩

/-- Witness for claim C9: the concrete item `w9Item` is scored 7, inside the
2..10 range. -/
theorem claim_c9_witness : 2 ≤ w9Scored.score ∧ w9Scored.score ≤ 10 := by
  have h := (claim_c9 w9Item 0 0 "Funding" "").2.2.2.2 w9Scored rfl
  exact ⟨h.2.1, h.2.2⟩

/-- Claim C10: the irrelevance filter reads only title, summary and
raw_content — it is invariant under any change of the categories list, so a
block-list token or the word blog appearing only in the categories never
drops an item — while the classifier input of score_item does include the
categories, which can change the chosen category. -/
theorem claim_c10 :
    (∀ (item : CoercedItem) (cats1 cats2 : List String) (category : String) (strength : Nat),
      is_irrelevant { item with categories := cats1 } category strength
        = is_irrelevant { item with categories := cats2 } category strength)
    ∧ (score_item c10News 0 0).isSome = true
    ∧ (score_item c10Policy 0 0).map (fun e => e.category) = some "Policy Update"
    ∧ (score_item c10Base 0 0).map (fun e => e.category) = some "Development Program" := by
  refine ⟨?_, rfl, rfl, rfl⟩
  intro item cats1 cats2 category strength
  cases item
  rfl

/-- Claim C5: build_report_items factors through the exposed dedup stage,
which keeps only the first occurrence of each identity key (lower-cased URL,
else content hash), preserving the relative order of survivors; concretely,
of two records with the same URL up to letter case only the first survives. -/
theorem claim_c5 :
    (∀ (parseDate : String → Option Int) (hash : String → String) (now : Int)
        (raws : List JFields),
      build_report_items parseDate hash raws now
        = sortItems ((dedupFirst hash [] (prefilter parseDate now raws)).filterMap
            (fun p => score_item p.1 p.2 now)))
    ∧ (∀ (hash : String → String) (l : List (CoercedItem × Int)) (seen : List String),
        (dedupFirst hash seen l).Sublist l)
    ∧ (∀ (hash : String → String) (l : List (CoercedItem × Int)) (k : String),
        (dedupFirst hash [] l).find? (fun p => dedupe_key hash p.1 == k)
          = l.find? (fun p => dedupe_key hash p.1 == k))
    ∧ (∀ (hash : String → String) (l : List (CoercedItem × Int)),
        ((dedupFirst hash [] l).map (fun p => dedupe_key hash p.1)).Nodup)
    ∧ (build_report_items (pdAt "tick" 0) hashNull [c5RawA, c5RawB] 0).map
        (fun e => e.title) = ["A"] := by
  refine ⟨?_, ?_, ?_, ?_, rfl⟩
  · intro parseDate hash now raws
    unfold build_report_items
    rw [buildGo_eq_stages parseDate hash now raws [] []]
    simp
  · exact fun hash l seen => dedupFirst_sublist hash l seen
  · exact fun hash l k => dedupFirst_find hash l [] k (by simp)
  · exact fun hash l => (dedupFirst_keys_nodup hash l []).1

/-- Claim C6: when every syntactically valid URL candidate of a record is a
placeholder, select_best_url falls back to the source-name table (empty when
no table entry matches); a ReliefWeb-sourced record with no usable URL gets
the ReliefWeb feed constant, and the two-step "un news" disambiguation picks
the humanitarian or economic feed. -/
theorem claim_c6 :
    (∀ item : JFields,
      (∀ c ∈ (url_candidate_values item).filter is_http_url, is_placeholder_url c = true) →
      select_best_url item = source_fallback_url (sourceNameOf item))
    ∧ select_best_url c6ReliefObj = "https://reliefweb.int/updates/rss.xml"
    ∧ select_best_url c6PlaceholderObj = ""
    ∧ select_best_url c6Both = "https://reliefweb.int/updates/rss.xml"
    ∧ source_fallback_url "UN News - Humanitarian Desk"
        = "https://news.un.org/feed/subscribe/en/news/topic/humanitarian-aid/feed/rss.xml"
    ∧ source_fallback_url "UN News economic briefing"
        = "https://news.un.org/feed/subscribe/en/news/topic/economic-development/feed/rss.xml" := by
  refine ⟨?_, rfl, rfl, rfl, rfl, rfl⟩
  intro item hph
  have hnp : ((url_candidate_values item).filter is_http_url).filter
      (fun c => !is_placeholder_url c) = [] := by
    rw [List.filter_eq_nil_iff]
    intro c hc
    simp [hph c hc]
  simp only [select_best_url, hnp]
  by_cases hm : source_fallback_url (sourceNameOf item) = ""
  · simp [hm]
  · simp [hm]

/-- Witness for claim C6: a record whose only URL is the placeholder
example.com and whose source is ReliefWeb resolves to the table fallback. -/
theorem claim_c6_witness :
    select_best_url c6Both = source_fallback_url (sourceNameOf c6Both) :=
  claim_c6.1 c6Both (by decide)

/-- Helper for claim C8: when no item-list key stores a list, the key scan of
extract_items comes back empty. -/
theorem firstListAtKeys_none (fields : JFields) :
    ∀ ks : List String, (∀ k ∈ ks, isListVal (jget fields k) = false) →
      firstListAtKeys fields ks = none := by
  intro ks
  induction ks with
  | nil => intro _; rfl
  | cons k rest ih =>
    intro h
    have hk := h k (List.mem_cons_self _ _)
    simp only [firstListAtKeys]
    have : listAt fields k = none := by
      revert hk
      unfold isListVal listAt
      cases jget fields k <;> simp
    rw [this]
    exact ih (fun q hq => h q (List.mem_cons_of_mem _ hq))

/-- Claim C8: extract_items is a total function into lists of mapping-shaped
entries; a string that does not parse as JSON, a mapping matching none of the
recognised shapes, and the non-list non-string non-mapping shapes all yield
the empty list. -/
theorem claim_c8 :
    (∀ (jp : String → Option JVal) (fuel : Nat) (s : String),
      jp (pyStrip s) = none → extract_items jp fuel (.jstr s) = [])
    ∧ (∀ (jp : String → Option JVal) (fuel : Nat) (b : Bool) (n : Int),
        extract_items jp fuel .jnull = []
        ∧ extract_items jp fuel (.jbool b) = []
        ∧ extract_items jp fuel (.jnum n) = [])
    ∧ (∀ (jp : String → Option JVal) (fuel : Nat) (fields : JFields),
        (∀ k ∈ ITEM_LIST_KEYS, isListVal (jget fields k) = false) →
        (∀ k ∈ ["payload", "client_payload", "body", "event"],
          extract_items jp (fuel - 1) (jget fields k) = []) →
        (jhas fields "title" && jhas fields "url") = false →
        extract_items jp fuel (.jobj fields) = [])
    ∧ extract_items jpNone 1 (.jstr "definitely not json") = []
    ∧ (∀ (jp : String → Option JVal) (fuel : Nat),
        extract_items jp fuel (.jobj (jfieldsOf [("foo", .jstr "bar")])) = []) := by
  refine ⟨?_, ?_, ?_, rfl, ?_⟩
  · intro jp fuel s hjp
    cases fuel with
    | zero => rfl
    | succ f =>
      by_cases hs : pyStrip s = ""
      · simp [extract_items, hs]
      · simp [extract_items, hs, hjp]
  · intro jp fuel b n
    refine ⟨?_, ?_, ?_⟩ <;> cases fuel <;> rfl
  · intro jp fuel fields hlists hnested htitle
    cases fuel with
    | zero => rfl
    | succ f =>
      have h1 : firstListAtKeys fields ITEM_LIST_KEYS = none := firstListAtKeys_none fields _ hlists
      have hp := hnested "payload" (by simp)
      have hc := hnested "client_payload" (by simp)
      have hb := hnested "body" (by simp)
      have he := hnested "event" (by simp)
      simp only [Nat.succ_sub_one] at hp hc hb he
      simp [extract_items, h1, hp, hc, hb, he, htitle]
  · intro jp fuel
    cases fuel with
    | zero => rfl
    | succ f =>
      have hnull : ∀ g, extract_items jp g JVal.jnull = [] := fun g => by cases g <;> rfl
      simp [extract_items, firstListAtKeys, listAt, jget, jfind, jfieldsOf, jhas, hnull]

/-- Witness for claim C8: a one-field mapping matching none of the recognised
shapes extracts to the empty list. -/
theorem claim_c8_witness :
    extract_items jpNone 1 (.jobj (jfieldsOf [("note", .jstr "x")])) = [] :=
  claim_c8.2.2.1 jpNone 1 (jfieldsOf [("note", .jstr "x")]) (by decide)
    (fun _ _ => rfl) (by decide)

/-- Evaluation of `build_report_items` on a single raw item whose parsed
timestamp falls before the 30-day cutoff: the item is dropped. -/
theorem build_report_items_drop (pd : String → Option Int) (hash : String → String)
    (now : Int) (raw : JFields) (ts : Int)
    (hts : parse_timestamp pd (coerce_item raw).timestamp = some ts)
    (hcut : ts < now - 30 * 86400) :
    build_report_items pd hash [raw] now = [] := by
  simp only [build_report_items, buildGo, hts]
  rw [if_pos hcut]
  simp [buildGo, sortItems]

/-- Claim C3 counterexample: a record whose timestamp parses to "now" itself —
well inside the 30-day window — is still dropped by build_report_items,
because its title carries a block-listed token; so "dropped iff the timestamp
fails to parse or is older than 30 days" is false as an iff. -/
theorem claim_c3_counterexample :
    parse_timestamp (pdAt "tick" 0) (coerce_item c3FreshRaw).timestamp = some 0
    ∧ ¬ ((0 : Int) < 0 - 30 * 86400)
    ∧ build_report_items (pdAt "tick" 0) hashNull [c3FreshRaw] 0 = [] :=
  ⟨rfl, by decide, rfl⟩

/-- Claim C3 (amended): the parse/cutoff stage of build_report_items drops an
item exactly when its timestamp fails to parse or is strictly older than 30
days before now (items can additionally be dropped later by dedup and the
irrelevance filter); at the boundary an item 30 days and 1 second old is
excluded while items exactly 30 or 29 days old are kept. -/
theorem claim_c3 :
    (∀ (parseDate : String → Option Int) (now : Int) (raw : JFields),
      parse_timestamp parseDate (coerce_item raw).timestamp = none →
      prefilter parseDate now [raw] = [])
    ∧ (∀ (parseDate : String → Option Int) (now : Int) (raw : JFields) (ts : Int),
        parse_timestamp parseDate (coerce_item raw).timestamp = some ts →
        (ts < now - 30 * 86400 → prefilter parseDate now [raw] = [])
        ∧ (¬ ts < now - 30 * 86400 → prefilter parseDate now [raw] = [(coerce_item raw, ts)]))
    ∧ (∀ now : Int,
        build_report_items (pdAt "tick" (now - (30 * 86400 + 1))) hashNull [c3Plain] now = [])
    ∧ (∀ now : Int,
        (build_report_items (pdAt "tick" (now - 30 * 86400)) hashNull [c3Plain] now).length = 1)
    ∧ (∀ now : Int,
        (build_report_items (pdAt "tick" (now - 29 * 86400)) hashNull [c3Plain] now).length = 1) := by
  refine ⟨?_, ?_, ?_, ?_, ?_⟩
  · intro pd now raw h
    simp [prefilter, h]
  · intro pd now raw ts h
    constructor
    · intro hcut
      have hcut2 : ts < now - 2592000 := by omega
      simp [prefilter, h, hcut2]
    · intro hcut
      have hcut2 : ¬ ts < now - 2592000 := by omega
      simp [prefilter, h, hcut2]
  · intro now
    exact build_report_items_drop _ _ now c3Plain (now - (30 * 86400 + 1)) rfl (by omega)
  · intro now
    rw [build_report_items_single (pdAt "tick" (now - 30 * 86400)) hashNull now c3Plain
      (now - 30 * 86400) rfl (by omega)]
    cases hsc : score_item (coerce_item c3Plain) (now - 30 * 86400) now with
    | none =>
      have hs := score_item_isSome (coerce_item c3Plain) (now - 30 * 86400) now rfl
      rw [hsc] at hs
      simp at hs
    | some s => simp [hsc]
  · intro now
    rw [build_report_items_single (pdAt "tick" (now - 29 * 86400)) hashNull now c3Plain
      (now - 29 * 86400) rfl (by omega)]
    cases hsc : score_item (coerce_item c3Plain) (now - 29 * 86400) now with
    | none =>
      have hs := score_item_isSome (coerce_item c3Plain) (now - 29 * 86400) now rfl
      rw [hsc] at hs
      simp at hs
    | some s => simp [hsc]

/-- Witness for claim C3: a record whose timestamp string the date parser does
not recognise is removed by the parse/cutoff stage. -/
theorem claim_c3_witness : prefilter (pdAt "other" 0) 0 [c3FreshRaw] = [] :=
  claim_c3.1 (pdAt "other" 0) 0 c3FreshRaw rfl

/-- Claim C1: the end-to-end scenario — one Sudan-crisis humanitarian record
three days old — classifies as Humanitarian Update with strength 3, scores
recency 3, impact 2 and completeness 2, and the pipeline publishes exactly one
item with score 10 and HIGH PRIORITY. -/
theorem claim_c1 (now : Int) (parseDate : String → Option Int) (hash : String → String)
    (jp : String → Option JVal)
    (hdate : parseDate "2026-01-05T00:00:00+00:00" = some (now - 259200)) :
    build_report_items parseDate hash (extract_items jp 1 c1Payload) now = [c1Expected now]
    ∧ classify_signal (score_text (coerce_item c1Raw))
        = ("Humanitarian Update", "Humanitarian emergency or response update", 3)
    ∧ recency_score (now - 259200) now = 3
    ∧ impact_score (coerce_item c1Raw) "Humanitarian Update" = 2
    ∧ completeness_score (coerce_item c1Raw) (detect_region (score_text (coerce_item c1Raw))) = 2 := by
  have hrec : recency_score (now - 259200) now = 3 := by
    simp only [recency_score]
    rw [show now - (now - 259200) = 259200 from by omega]
    decide
  have hts : parse_timestamp parseDate (coerce_item c1Raw).timestamp = some (now - 259200) := by
    rw [show parse_timestamp parseDate (coerce_item c1Raw).timestamp
        = parseDate "2026-01-05T00:00:00+00:00" from rfl, hdate]
  have hx : extract_items jp 1 c1Payload = [c1Raw] := rfl
  have hsc : score_item (coerce_item c1Raw) (now - 259200) now = some (c1Expected now) := by
    simp only [score_item]
    rw [show is_irrelevant (coerce_item c1Raw)
        (classify_signal (score_text (coerce_item c1Raw))).1
        (classify_signal (score_text (coerce_item c1Raw))).2.2 = false from rfl]
    rw [hrec]
    rfl
  refine ⟨?_, rfl, hrec, rfl, rfl⟩
  rw [hx, build_report_items_single parseDate hash now c1Raw (now - 259200) hts (by omega), hsc]

/-- Witness for claim C1 at the concrete instant 0. -/
theorem claim_c1_witness :
    build_report_items (pdAt "2026-01-05T00:00:00+00:00" (-259200)) hashNull
      (extract_items jpNone 1 c1Payload) 0 = [c1Expected 0] :=
  (claim_c1 0 (pdAt "2026-01-05T00:00:00+00:00" (-259200)) hashNull jpNone (by decide)).1

/-- Helper for claim C2: a successful MONEY_PATTERN search implies a currency
marker somewhere in the text — the pattern cannot fire without one. -/
theorem findMoney_marker : ∀ (cs : List Char) (m : List Char),
    findMoney cs = some m → hasCurrencyMarkerAux cs = true := by
  intro cs
  induction cs with
  | nil => intro m h; simp [findMoney] at h
  | cons c rest ih =>
    intro m h
    simp only [findMoney] at h
    cases hm : matchMoneyAt (c :: rest) with
    | none =>
      rw [hm] at h
      have := ih m h
      simp [hasCurrencyMarkerAux, this]
    | some mm =>
      by_cases hd : c = '$'
      · simp [hasCurrencyMarkerAux, hd]
      · cases hcond : (lcLeads "usd".toList (c :: rest) || lcLeads "eur".toList (c :: rest)
            || lcLeads "gbp".toList (c :: rest)) with
        | false =>
          exfalso
          unfold matchMoneyAt at hm
          split at hm <;> simp_all
        | true =>
          simp only [hasCurrencyMarkerAux]
          simp only [Bool.or_eq_true] at hcond ⊢
          tauto

/-- Claim C2 counterexample: the monetary pattern's currency marker is not
optional — a bare digit group with a magnitude word and no currency marker is
not matched, so "50 million" yields the empty funding amount rather than the
matched text the claim promises. -/
theorem claim_c2_counterexample :
    extract_money_value "50 million" = "" ∧ ("" : String) ≠ "50 million"
    ∧ (coerce_item (jfieldsOf [("title", .jstr "Pledges of 50 million for relief")])).funding_amount
        = "" :=
  ⟨rfl, by decide, rfl⟩

/-- Claim C2 (amended): extract_money_value returns the whitespace-normalized
first match of the monetary pattern, whose currency marker ($ or
case-insensitive usd/eur/gbp) is mandatory: any non-empty result implies a
currency marker occurs in the text, bare magnitudes yield the empty string,
and marked amounts are returned verbatim. -/
theorem claim_c2 :
    (∀ text : String, extract_money_value text ≠ "" → hasCurrencyMarker text = true)
    ∧ extract_money_value "$50 million" = "$50 million"
    ∧ extract_money_value "Requested USD 2.5 billion in aid" = "USD 2.5 billion"
    ∧ extract_money_value "backed by eur 300m funding" = "eur 300m"
    ∧ (coerce_item c1Raw).funding_amount = "$50 million" := by
  refine ⟨?_, rfl, rfl, rfl, rfl⟩
  intro text hne
  unfold extract_money_value at hne
  by_cases htext : text = ""
  · simp [htext] at hne
  · rw [if_neg htext] at hne
    cases hf : findMoney text.toList with
    | none => rw [hf] at hne; simp at hne
    | some m => exact findMoney_marker text.toList m hf

/-- Witness for claim C2: the dollar-marked amount both matches and carries a
currency marker. -/
theorem claim_c2_witness : hasCurrencyMarker "$50 million" = true :=
  claim_c2.1 "$50 million" (by decide)
